import Mathlib

/-!
Verification of the Fantasy Idle Adventure economy engine (src/script.js).

Shallow embedding conventions:
* JavaScript numbers are modelled as exact rationals (costs, which the code
  always floors, as integers).  Floating-point rounding is outside the model.
* The transcendental call Math.pow(owned, exponent) with a fractional
  exponent has no exact rational value, so every cost-model definition takes
  the power function as an explicit parameter pow : Nat -> Rat -> Rat
  (first argument the owned count, second the exponent).  Theorems assume
  only the facts of Math.pow they need (pow 0 e = 0, pow 1 e = 1), and
  concrete statements instantiate pow with a sample function that agrees
  with Math.pow at bases 0 and 1.
* The global mutable gameState becomes an explicit GameState value threaded
  through the operations; functions that in the source mutate it in place
  here return the updated state.  Operations whose source failure branch
  only logs and returns (buyJob, buyUpgrade, prestigeGame) are modelled as
  Except, the error constructor marking the branch taken.
* The while loops in the max-buy search are modelled by fuel recursion; the
  fuel (floor of the gold balance plus one) is proven sufficient, which is
  the termination argument for the source loop.
-/

namespace FIA

/-- Per-job balance record, from the BALANCE_DATA literal in script.js.
Wizards carry goldPerClick instead of goldPerSecond; the field the source
never reads for a given job kind is set to 0 here. -/
structure JobData where
  baseCost : ℤ
  costIncreaseRate : ℚ
  costExponent : ℚ
  goldPerSecond : ℚ
  goldPerClick : ℚ
deriving DecidableEq

/-- Per-upgrade balance record, from the BALANCE_DATA literal. -/
structure UpgradeData where
  baseCost : ℤ
  costIncreaseRate : ℚ
  costExponent : ℚ
  effectMultiplier : ℚ
  job : String
deriving DecidableEq

def minersData : JobData := ⟨10, 15/100, 9/10, 1, 0⟩

def soldiersData : JobData := ⟨50, 17/100, 95/100, 5, 0⟩

def wizardsData : JobData := ⟨100, 20/100, 105/100, 0, 2⟩

def minerSharpPickaxeData : UpgradeData := ⟨50, 25/100, 110/100, 10/100, "miners"⟩

def soldierStrongerSwordsData : UpgradeData := ⟨150, 28/100, 115/100, 10/100, "soldiers"⟩

def wizardBetterFocusData : UpgradeData := ⟨250, 30/100, 120/100, 10/100, "wizards"⟩

/-- balanceData.general.baseGoldPerClick. -/
def baseGoldPerClick : ℚ := 1

/-- balanceData.prestige constants. -/
def prestigeUnlockThreshold : ℚ := 1000000

def pointsFormulaDivisor : ℚ := 1000000

def bonusMultiplierPerPoint : ℚ := 2/100

/-- Lookup balanceData.jobs[type]. -/
def jobsLookup : String → Option JobData
  | "miners" => some minersData
  | "soldiers" => some soldiersData
  | "wizards" => some wizardsData
  | _ => none

/-- Lookup balanceData.upgrades[type]. -/
def upgradesLookup : String → Option UpgradeData
  | "miner-sharp-pickaxe" => some minerSharpPickaxeData
  | "soldier-stronger-swords" => some soldierStrongerSwordsData
  | "wizard-better-focus" => some wizardBetterFocusData
  | _ => none

/-- gameState.artifactEffects: the modifier accumulator, with
startingResources flattened into the sr* fields. -/
@[ext] structure ArtifactEffects where
  goldMultiplier : ℚ
  clickMultiplier : ℚ
  passiveMultiplier : ℚ
  jobCostReduction : ℚ
  srGold : ℚ
  srMiners : ℕ
  srSoldiers : ℕ
  srWizards : ℕ
deriving DecidableEq

/-- One entry of gameState.upgrades. -/
@[ext] structure UpgradeState where
  level : ℕ
  cost : ℤ
deriving DecidableEq

/-- The gameState object of script.js (persistence timestamp omitted; job
counts and upgrade levels are kept as naturals, matching their integer
invariant). -/
@[ext] structure GameState where
  gold : ℚ
  goldPerClick : ℚ
  goldPerSec : ℚ
  minerJobs : ℕ
  minerJobCost : ℤ
  minerJobGPS : ℚ
  soldierJobs : ℕ
  soldierJobCost : ℤ
  soldierJobGPS : ℚ
  wizardJobs : ℕ
  wizardJobCost : ℤ
  wizardJobGPC : ℚ
  upMinerSharpPickaxe : UpgradeState
  upSoldierStrongerSwords : UpgradeState
  upWizardBetterFocus : UpgradeState
  useScientificNotation : Bool
  prestigePoints : ℚ
  prestigeBonusMultiplier : ℚ
  lifetimeGold : ℚ
  totalPrestiges : ℕ
  unlockedIds : List String
  artifactEffects : ArtifactEffects
deriving DecidableEq

/-- The identity accumulator the source resets to at the top of
applyArtifactEffects (and the initial literal value). -/
def identityEffects : ArtifactEffects := ⟨1, 1, 1, 0, 0, 0, 0, 0⟩

/-- The initial gameState literal of script.js. -/
def initialGameState : GameState where
  gold := 0
  goldPerClick := 1
  goldPerSec := 0
  minerJobs := 0
  minerJobCost := 10
  minerJobGPS := 1
  soldierJobs := 0
  soldierJobCost := 50
  soldierJobGPS := 5
  wizardJobs := 0
  wizardJobCost := 100
  wizardJobGPC := 2
  upMinerSharpPickaxe := ⟨0, 50⟩
  upSoldierStrongerSwords := ⟨0, 150⟩
  upWizardBetterFocus := ⟨0, 250⟩
  useScientificNotation := false
  prestigePoints := 0
  prestigeBonusMultiplier := 1
  lifetimeGold := 0
  totalPrestiges := 0
  unlockedIds := []
  artifactEffects := identityEffects

/-- Sample power function used to instantiate the pow parameter in closed
statements; it agrees with Math.pow at bases 0 and 1 (pow 0 e = 0 for the
positive exponents occurring in the balance table, pow 1 e = 1). -/
def powSample : ℕ → ℚ → ℚ := fun n _ => (n : ℚ)

/-- calculateNextCost(type, owned): the price of a single next job or
upgrade.  floor(baseCost * (1 + rate * pow(owned, exponent))); jobs (and
only jobs) are then discounted by the artifact job-cost reduction and
floored again.  Unknown identifiers log an error and return cost 0 in the
source; the returned 0 is kept here.  red is
gameState.artifactEffects.jobCostReduction. -/
def calculateNextCost (pow : ℕ → ℚ → ℚ) (red : ℚ) (ty : String) (owned : ℕ) : ℤ :=
  match jobsLookup ty with
  | some jd =>
      let cost : ℤ := ⌊(jd.baseCost : ℚ) * (1 + jd.costIncreaseRate * pow owned jd.costExponent)⌋
      if 0 < red then ⌊(cost : ℚ) * (1 - red)⌋ else cost
  | none =>
      match upgradesLookup ty with
      | some ud => ⌊(ud.baseCost : ℚ) * (1 + ud.costIncreaseRate * pow owned ud.costExponent)⌋
      | none => 0

/-- The cost formula as the spec words it: floor the base growth formula,
multiply by (1 - reduction) and floor again, identically for jobs and
upgrades.  Stated for comparison with calculateNextCost. -/
def specUnitCost (pow : ℕ → ℚ → ℚ) (red : ℚ) (ty : String) (owned : ℕ) : ℤ :=
  match jobsLookup ty with
  | some jd =>
      ⌊(⌊(jd.baseCost : ℚ) * (1 + jd.costIncreaseRate * pow owned jd.costExponent)⌋ : ℚ) * (1 - red)⌋
  | none =>
      match upgradesLookup ty with
      | some ud =>
          ⌊(⌊(ud.baseCost : ℚ) * (1 + ud.costIncreaseRate * pow owned ud.costExponent)⌋ : ℚ) * (1 - red)⌋
      | none => 0

/-- The numeric branch of calculateBulkCost: the for loop summing
calculateNextCost(type, owned + i) for i below the quantity, here over an
abstract per-step cost function c. -/
def bulkSum (c : ℕ → ℤ) (owned : ℕ) : ℕ → ℤ
  | 0 => 0
  | q + 1 => bulkSum c owned q + c (owned + q)

/-- One fuel-indexed unfolding of the max-buy while loop shared (verbatim in
the source) by calculateBulkCost, buyJob and buyUpgrade: while
gold >= totalCost + nextCost, accumulate and advance. -/
def maxAffordableAux (c : ℕ → ℤ) (gold : ℚ) : ℕ → ℕ → ℕ → ℤ → ℕ × ℤ
  | 0, _, count, total => (count, total)
  | fuel + 1, owned, count, total =>
      let next := c (owned + count)
      if ((total + next : ℤ) : ℚ) ≤ gold then
        maxAffordableAux c gold fuel owned (count + 1) (total + next)
      else (count, total)

/-- The max-buy search: greedy count and accumulated cost, starting from
zero bought and zero spent.  The fuel floor(gold) + 1 is proven sufficient
below (each loop step adds a positive integer cost). -/
def maxAffordable (c : ℕ → ℤ) (owned : ℕ) (gold : ℚ) : ℕ × ℤ :=
  maxAffordableAux c gold (⌊gold⌋ + 1).toNat owned 0 0

inductive BuyQuantity
  | num (n : ℕ)
  | max
deriving DecidableEq

/-- calculateBulkCost(type, ..., owned, quantity).  The source signature
also receives baseCost/increaseRate/exponent but never uses them: both
branches price each step through calculateNextCost. -/
def calculateBulkCost (pow : ℕ → ℚ → ℚ) (red : ℚ) (gold : ℚ) (ty : String) (owned : ℕ) :
    BuyQuantity → ℤ
  | BuyQuantity.max => (maxAffordable (fun n => calculateNextCost pow red ty n) owned gold).2
  | BuyQuantity.num q => bulkSum (fun n => calculateNextCost pow red ty n) owned q

inductive BuyError
  | invalidKind
  | insufficientFunds
deriving DecidableEq

/-- gameState[jobTypeBase + "Jobs"]: the owned count for a job kind (the
source resolves the field name from the explicit plural-to-singular map). -/
def ownedJobs (s : GameState) : String → ℕ
  | "miners" => s.minerJobs
  | "soldiers" => s.soldierJobs
  | "wizards" => s.wizardJobs
  | _ => 0

/-- The numToBuy resolved by buyJob: the quantity itself, or the count found
by the max-buy loop (which in the source duplicates the loop of
calculateBulkCost verbatim). -/
def buyCount (pow : ℕ → ℚ → ℚ) (s : GameState) (ty : String) : BuyQuantity → ℕ
  | BuyQuantity.max =>
      (maxAffordable (fun n => calculateNextCost pow s.artifactEffects.jobCostReduction ty n)
        (ownedJobs s ty) s.gold).1
  | BuyQuantity.num n => n

/-- The totalCost computed by buyJob through calculateBulkCost. -/
def jobTotalCost (pow : ℕ → ℚ → ℚ) (s : GameState) (ty : String) (q : BuyQuantity) : ℤ :=
  calculateBulkCost pow s.artifactEffects.jobCostReduction s.gold ty (ownedJobs s ty) q

/-- buyJob(jobType, quantity).  On success: deduct the total cost, add the
bought count, add numToBuy * per-unit base yield to the derived rate
(goldPerSec for miners and soldiers, goldPerClick for wizards), overwrite
the per-unit GPS field with the base goldPerSecond for miners and soldiers,
and refresh the stored next-cost field.  The insufficient branch of the
source only logs; the invalid branch logs and returns early. -/
def buyJob (pow : ℕ → ℚ → ℚ) (s : GameState) (ty : String) (q : BuyQuantity) :
    Except BuyError GameState :=
  match ty with
  | "miners" =>
      let n := buyCount pow s ("miners") q
      let totalCost := jobTotalCost pow s ("miners") q
      if (totalCost : ℚ) ≤ s.gold ∧ 0 < n then
        Except.ok { s with
          gold := s.gold - totalCost
          minerJobs := s.minerJobs + n
          goldPerSec := s.goldPerSec + (n : ℚ) * minersData.goldPerSecond
          minerJobGPS := minersData.goldPerSecond
          minerJobCost :=
            calculateNextCost pow s.artifactEffects.jobCostReduction ("miners")
              (s.minerJobs + n) }
      else Except.error BuyError.insufficientFunds
  | "soldiers" =>
      let n := buyCount pow s ("soldiers") q
      let totalCost := jobTotalCost pow s ("soldiers") q
      if (totalCost : ℚ) ≤ s.gold ∧ 0 < n then
        Except.ok { s with
          gold := s.gold - totalCost
          soldierJobs := s.soldierJobs + n
          goldPerSec := s.goldPerSec + (n : ℚ) * soldiersData.goldPerSecond
          soldierJobGPS := soldiersData.goldPerSecond
          soldierJobCost :=
            calculateNextCost pow s.artifactEffects.jobCostReduction ("soldiers")
              (s.soldierJobs + n) }
      else Except.error BuyError.insufficientFunds
  | "wizards" =>
      let n := buyCount pow s ("wizards") q
      let totalCost := jobTotalCost pow s ("wizards") q
      if (totalCost : ℚ) ≤ s.gold ∧ 0 < n then
        Except.ok { s with
          gold := s.gold - totalCost
          wizardJobs := s.wizardJobs + n
          goldPerClick := s.goldPerClick + (n : ℚ) * wizardsData.goldPerClick
          wizardJobCost :=
            calculateNextCost pow s.artifactEffects.jobCostReduction ("wizards")
              (s.wizardJobs + n) }
      else Except.error BuyError.insufficientFunds
  | _ => Except.error BuyError.invalidKind

/-- gameState.upgrades[upgradeId].level. -/
def upgradeLevel (s : GameState) : String → ℕ
  | "miner-sharp-pickaxe" => s.upMinerSharpPickaxe.level
  | "soldier-stronger-swords" => s.upSoldierStrongerSwords.level
  | "wizard-better-focus" => s.upWizardBetterFocus.level
  | _ => 0

/-- The numToBuy resolved by buyUpgrade (same duplicated max loop). -/
def upgradeBuyCount (pow : ℕ → ℚ → ℚ) (s : GameState) (uid : String) : BuyQuantity → ℕ
  | BuyQuantity.max =>
      (maxAffordable (fun n => calculateNextCost pow s.artifactEffects.jobCostReduction uid n)
        (upgradeLevel s uid) s.gold).1
  | BuyQuantity.num n => n

/-- The totalCost computed by buyUpgrade through calculateBulkCost. -/
def upgradeTotalCost (pow : ℕ → ℚ → ℚ) (s : GameState) (uid : String) (q : BuyQuantity) : ℤ :=
  calculateBulkCost pow s.artifactEffects.jobCostReduction s.gold uid (upgradeLevel s uid) q

/-- buyUpgrade(upgradeId, quantity).  The success guard checks only
gold >= totalCost (no check that numToBuy is positive).  On "success":
deduct, raise the level, multiply the target per-unit rate by
(1 + effectMultiplier)^numToBuy, and recompute the derived rate as a bare
sum of per-unit rates times counts (without the prestige or artifact
multipliers), then refresh the stored upgrade cost. -/
def buyUpgrade (pow : ℕ → ℚ → ℚ) (s : GameState) (uid : String) (q : BuyQuantity) :
    Except BuyError GameState :=
  match uid with
  | "miner-sharp-pickaxe" =>
      let n := upgradeBuyCount pow s ("miner-sharp-pickaxe") q
      let totalCost := upgradeTotalCost pow s ("miner-sharp-pickaxe") q
      if (totalCost : ℚ) ≤ s.gold then
        let newLevel := s.upMinerSharpPickaxe.level + n
        let newGPS := s.minerJobGPS * (1 + minerSharpPickaxeData.effectMultiplier) ^ n
        Except.ok { s with
          gold := s.gold - totalCost
          upMinerSharpPickaxe :=
            ⟨newLevel,
              calculateNextCost pow s.artifactEffects.jobCostReduction ("miner-sharp-pickaxe")
                newLevel⟩
          minerJobGPS := newGPS
          goldPerSec := newGPS * (s.minerJobs : ℚ) + s.soldierJobGPS * (s.soldierJobs : ℚ) }
      else Except.error BuyError.insufficientFunds
  | "soldier-stronger-swords" =>
      let n := upgradeBuyCount pow s ("soldier-stronger-swords") q
      let totalCost := upgradeTotalCost pow s ("soldier-stronger-swords") q
      if (totalCost : ℚ) ≤ s.gold then
        let newLevel := s.upSoldierStrongerSwords.level + n
        let newGPS := s.soldierJobGPS * (1 + soldierStrongerSwordsData.effectMultiplier) ^ n
        Except.ok { s with
          gold := s.gold - totalCost
          upSoldierStrongerSwords :=
            ⟨newLevel,
              calculateNextCost pow s.artifactEffects.jobCostReduction ("soldier-stronger-swords")
                newLevel⟩
          soldierJobGPS := newGPS
          goldPerSec := s.minerJobGPS * (s.minerJobs : ℚ) + newGPS * (s.soldierJobs : ℚ) }
      else Except.error BuyError.insufficientFunds
  | "wizard-better-focus" =>
      let n := upgradeBuyCount pow s ("wizard-better-focus") q
      let totalCost := upgradeTotalCost pow s ("wizard-better-focus") q
      if (totalCost : ℚ) ≤ s.gold then
        let newLevel := s.upWizardBetterFocus.level + n
        let newGPC := s.wizardJobGPC * (1 + wizardBetterFocusData.effectMultiplier) ^ n
        Except.ok { s with
          gold := s.gold - totalCost
          upWizardBetterFocus :=
            ⟨newLevel,
              calculateNextCost pow s.artifactEffects.jobCostReduction ("wizard-better-focus")
                newLevel⟩
          wizardJobGPC := newGPC
          goldPerClick := baseGoldPerClick + newGPC * (s.wizardJobs : ℚ) }
      else Except.error BuyError.insufficientFunds
  | _ => Except.error BuyError.invalidKind

/-- The applyEffect closure of ARTIFACTS[aid] (identity for ids outside the
registry, matching the lookup guard).  Note that mystic-pickaxe,
heroes-medallion and ancient-scroll mutate the per-unit rate fields of the
game state directly instead of the accumulator. -/
def applyArtifactEffect (aid : String) (s : GameState) : GameState :=
  if aid = "ancient-coin" then
    { s with artifactEffects :=
        { s.artifactEffects with goldMultiplier := s.artifactEffects.goldMultiplier * (12/10) } }
  else if aid = "mystic-pickaxe" then
    { s with minerJobGPS := s.minerJobGPS * (135/100) }
  else if aid = "lucky-clover" then
    { s with artifactEffects :=
        { s.artifactEffects with clickMultiplier := s.artifactEffects.clickMultiplier * (125/100) } }
  else if aid = "heroes-medallion" then
    { s with soldierJobGPS := s.soldierJobGPS * (14/10) }
  else if aid = "ancient-scroll" then
    { s with wizardJobGPC := s.wizardJobGPC * (135/100) }
  else if aid = "mercantile-emblem" then
    { s with artifactEffects := { s.artifactEffects with jobCostReduction := 15/100 } }
  else if aid = "bottomless-pouch" then
    { s with artifactEffects := { s.artifactEffects with srGold := 100 } }
  else if aid = "midas-touch" then
    { s with artifactEffects :=
        { s.artifactEffects with goldMultiplier := s.artifactEffects.goldMultiplier * (15/10) } }
  else if aid = "philosophers-stone" then
    { s with artifactEffects :=
        { s.artifactEffects with
          srMiners := 3
          srSoldiers := 3
          srWizards := 3
          goldMultiplier := s.artifactEffects.goldMultiplier * (125/100) } }
  else s

/-- recalculateGoldRates(): from-scratch recomputation of the derived
yields from counts, per-unit rates, the prestige multiplier and the
artifact multipliers. -/
def recalculateGoldRates (s : GameState) : GameState :=
  { s with
    goldPerClick :=
      (baseGoldPerClick + s.wizardJobGPC * (s.wizardJobs : ℚ)) *
        s.prestigeBonusMultiplier * s.artifactEffects.goldMultiplier *
        s.artifactEffects.clickMultiplier
    goldPerSec :=
      (s.minerJobGPS * (s.minerJobs : ℚ) + s.soldierJobGPS * (s.soldierJobs : ℚ)) *
        s.prestigeBonusMultiplier * s.artifactEffects.goldMultiplier *
        s.artifactEffects.passiveMultiplier }

/-- applyArtifactEffects(): reset the accumulator to identity, apply each
unlocked artifact effect in list order, then recompute the gold rates (the
cost display refresh is UI only and is omitted). -/
def applyArtifactEffects (s : GameState) : GameState :=
  recalculateGoldRates
    (List.foldl (fun t aid => applyArtifactEffect aid t)
      { s with artifactEffects := identityEffects } s.unlockedIds)

/-- The artifact registry in Object.values(ARTIFACTS) order, with each
unlockCondition.prestiges threshold. -/
def artifactOrder : List (String × ℕ) :=
  [("ancient-coin", 1), ("mystic-pickaxe", 2), ("lucky-clover", 3), ("heroes-medallion", 4),
    ("ancient-scroll", 5), ("mercantile-emblem", 6), ("bottomless-pouch", 7), ("midas-touch", 8),
    ("philosophers-stone", 10)]

/-- One iteration of the checkArtifactUnlocks forEach: push the artifact
when its threshold is reached and it is not yet unlocked. -/
def unlockStep (prestigeCount : ℕ) (acc : GameState × List String) (a : String × ℕ) :
    GameState × List String :=
  if a.2 ≤ prestigeCount ∧ a.1 ∉ acc.1.unlockedIds then
    ({ acc.1 with unlockedIds := acc.1.unlockedIds ++ [a.1] }, acc.2 ++ [a.1])
  else acc

/-- checkArtifactUnlocks(prestigeCount): push every artifact whose
threshold is reached and which is not yet unlocked; returns the updated
state and the newly unlocked ids. -/
def checkArtifactUnlocks (prestigeCount : ℕ) (s : GameState) : GameState × List String :=
  artifactOrder.foldl (unlockStep prestigeCount) (s, [])

/-- calculatePrestigePoints(): 0 for nonpositive lifetime gold, otherwise
Math.floor(Math.sqrt(lifetimeGold / divisor)).  The floored square root of
the rational quotient is written with Nat.sqrt of the floor, which equals
the floor of the real square root (proved in the C7 theorem). -/
def calculatePrestigePoints (s : GameState) : ℕ :=
  if s.lifetimeGold ≤ 0 then 0
  else Nat.sqrt ⌊s.lifetimeGold / pointsFormulaDivisor⌋₊

inductive PrestigeError
  | notEligible
deriving DecidableEq

/-- prestigeGame(): on a positive award, add it to the prestige points,
recompute the bonus multiplier, bump the prestige counter, unlock artifacts,
reset the cycle state to defaults except the artifact starting resources,
then reapply artifact effects and recompute the rates.  Otherwise the source
only plays an error sound and alerts. -/
def prestigeGame (s : GameState) : Except PrestigeError GameState :=
  let pointsToGain := calculatePrestigePoints s
  if 0 < pointsToGain then
    let s1 := { s with prestigePoints := s.prestigePoints + (pointsToGain : ℚ) }
    let s2 :=
      { s1 with prestigeBonusMultiplier := 1 + s1.prestigePoints * bonusMultiplierPerPoint }
    let s3 := { s2 with totalPrestiges := s2.totalPrestiges + 1 }
    let s4 := (checkArtifactUnlocks s3.totalPrestiges s3).1
    let s5 := { s4 with
      gold := s4.artifactEffects.srGold
      minerJobs := s4.artifactEffects.srMiners
      soldierJobs := s4.artifactEffects.srSoldiers
      wizardJobs := s4.artifactEffects.srWizards
      goldPerClick := baseGoldPerClick
      goldPerSec := 0
      minerJobCost := minersData.baseCost
      soldierJobCost := soldiersData.baseCost
      wizardJobCost := wizardsData.baseCost
      minerJobGPS := minersData.goldPerSecond
      soldierJobGPS := soldiersData.goldPerSecond
      wizardJobGPC := wizardsData.goldPerClick
      upMinerSharpPickaxe := ⟨0, minerSharpPickaxeData.baseCost⟩
      upSoldierStrongerSwords := ⟨0, soldierStrongerSwordsData.baseCost⟩
      upWizardBetterFocus := ⟨0, wizardBetterFocusData.baseCost⟩
      lifetimeGold := 0 }
    Except.ok (recalculateGoldRates (applyArtifactEffects s5))
  else Except.error PrestigeError.notEligible

/-- prestigeGame as a plain state transformer: a failed prestige leaves the
state unchanged. -/
def prestigeStep (s : GameState) : GameState :=
  match prestigeGame s with
  | Except.ok t => t
  | Except.error _ => s

/-- A decoded save payload.  Each top-level key of the persisted record is
either present with a value of the expected type (some) or absent or of the
wrong type (none); the loader validates only gold and prestigePoints. -/
structure Payload where
  gold : Option ℚ
  goldPerClick : Option ℚ
  goldPerSec : Option ℚ
  minerJobs : Option ℕ
  minerJobCost : Option ℤ
  minerJobGPS : Option ℚ
  soldierJobs : Option ℕ
  soldierJobCost : Option ℤ
  soldierJobGPS : Option ℚ
  wizardJobs : Option ℕ
  wizardJobCost : Option ℤ
  wizardJobGPC : Option ℚ
  upMinerSharpPickaxe : Option UpgradeState
  upSoldierStrongerSwords : Option UpgradeState
  upWizardBetterFocus : Option UpgradeState
  useScientificNotation : Option Bool
  prestigePoints : Option ℚ
  prestigeBonusMultiplier : Option ℚ
  lifetimeGold : Option ℚ
  totalPrestiges : Option ℕ
  unlockedIds : Option (List String)
  artifactEffects : Option ArtifactEffects
deriving DecidableEq

/-- The spread merge { ...gameState, ...loadedState }: every key present in
the payload wins, absent keys keep the in-memory defaults. -/
def mergePayload (s : GameState) (p : Payload) : GameState where
  gold := p.gold.getD s.gold
  goldPerClick := p.goldPerClick.getD s.goldPerClick
  goldPerSec := p.goldPerSec.getD s.goldPerSec
  minerJobs := p.minerJobs.getD s.minerJobs
  minerJobCost := p.minerJobCost.getD s.minerJobCost
  minerJobGPS := p.minerJobGPS.getD s.minerJobGPS
  soldierJobs := p.soldierJobs.getD s.soldierJobs
  soldierJobCost := p.soldierJobCost.getD s.soldierJobCost
  soldierJobGPS := p.soldierJobGPS.getD s.soldierJobGPS
  wizardJobs := p.wizardJobs.getD s.wizardJobs
  wizardJobCost := p.wizardJobCost.getD s.wizardJobCost
  wizardJobGPC := p.wizardJobGPC.getD s.wizardJobGPC
  upMinerSharpPickaxe := p.upMinerSharpPickaxe.getD s.upMinerSharpPickaxe
  upSoldierStrongerSwords := p.upSoldierStrongerSwords.getD s.upSoldierStrongerSwords
  upWizardBetterFocus := p.upWizardBetterFocus.getD s.upWizardBetterFocus
  useScientificNotation := p.useScientificNotation.getD s.useScientificNotation
  prestigePoints := p.prestigePoints.getD s.prestigePoints
  prestigeBonusMultiplier := p.prestigeBonusMultiplier.getD s.prestigeBonusMultiplier
  lifetimeGold := p.lifetimeGold.getD s.lifetimeGold
  totalPrestiges := p.totalPrestiges.getD s.totalPrestiges
  unlockedIds := p.unlockedIds.getD s.unlockedIds
  artifactEffects := p.artifactEffects.getD s.artifactEffects

/-- The validation guard of loadGame: typeof gold and typeof prestigePoints
must both be number. -/
def validPayload (p : Payload) : Prop :=
  p.gold.isSome = true ∧ p.prestigePoints.isSome = true

instance (p : Payload) : Decidable (validPayload p) := by
  unfold validPayload; infer_instance

/-- loadGame(): the primary store is attempted first; absence or a parse
failure (both modelled as none) falls back to the backup store.  A decoded
payload is merged over the current defaults only when the validation guard
passes; otherwise the state is left untouched. -/
def loadGame (primary backup : Option Payload) (s : GameState) : GameState :=
  let loaded := match primary with
    | some p => some p
    | none => backup
  match loaded with
  | none => s
  | some p => if validPayload p then mergePayload s p else s

/-! ### Lemmas about the max-buy loop -/

lemma bulkSum_nonneg (c : ℕ → ℤ) (owned : ℕ) (hc : ∀ n, 1 ≤ c n) :
    ∀ k, 0 ≤ bulkSum c owned k := by
  intro k
  induction k with
  | zero => simp [bulkSum]
  | succ k ih =>
      have := hc (owned + k)
      simp only [bulkSum]
      omega

lemma le_bulkSum_of_pos (c : ℕ → ℤ) (owned : ℕ) (hc : ∀ n, 1 ≤ c n) :
    ∀ k, 0 < k → c owned ≤ bulkSum c owned k := by
  intro k
  induction k with
  | zero => omega
  | succ k ih =>
      intro _
      rcases Nat.eq_zero_or_pos k with hk | hk
      · subst hk; simp [bulkSum]
      · have h1 := ih hk
        have h2 := hc (owned + k)
        simp only [bulkSum]
        omega

lemma maxAffordableAux_spec (c : ℕ → ℤ) (gold : ℚ) (owned : ℕ) (hc : ∀ n, 1 ≤ c n) :
    ∀ (fuel count : ℕ) (total : ℤ),
      total = bulkSum c owned count →
      (total : ℚ) ≤ gold →
      gold - (total : ℚ) < (fuel : ℚ) →
      (maxAffordableAux c gold fuel owned count total).2
          = bulkSum c owned (maxAffordableAux c gold fuel owned count total).1 ∧
        ((maxAffordableAux c gold fuel owned count total).2 : ℚ) ≤ gold ∧
        gold < ((maxAffordableAux c gold fuel owned count total).2 : ℚ)
            + (c (owned + (maxAffordableAux c gold fuel owned count total).1) : ℚ) := by
  intro fuel
  induction fuel with
  | zero =>
      intro count total _ hle hf
      norm_num at hf
      linarith
  | succ fuel ih =>
      intro count total ht hle hf
      by_cases h : ((total + c (owned + count) : ℤ) : ℚ) ≤ gold
      · have hstep : maxAffordableAux c gold (fuel + 1) owned count total
            = maxAffordableAux c gold fuel owned (count + 1) (total + c (owned + count)) := by
          simp only [maxAffordableAux]
          rw [if_pos h]
        rw [hstep]
        apply ih
        · simp only [bulkSum, ht]
        · exact h
        · have h1 := hc (owned + count)
          push_cast at h ⊢
          push_cast at hf
          have : (1 : ℚ) ≤ (c (owned + count) : ℚ) := by exact_mod_cast h1
          linarith
      · have hstep : maxAffordableAux c gold (fuel + 1) owned count total = (count, total) := by
          simp only [maxAffordableAux]
          rw [if_neg h]
        rw [hstep]
        push_cast at h
        exact ⟨ht, hle, by linarith⟩

lemma maxAffordable_spec (c : ℕ → ℤ) (owned : ℕ) (gold : ℚ) (hc : ∀ n, 1 ≤ c n)
    (hg : 0 ≤ gold) :
    (maxAffordable c owned gold).2 = bulkSum c owned (maxAffordable c owned gold).1 ∧
      ((maxAffordable c owned gold).2 : ℚ) ≤ gold ∧
      gold < ((maxAffordable c owned gold).2 : ℚ)
          + (c (owned + (maxAffordable c owned gold).1) : ℚ) := by
  have hfloor : (0 : ℤ) ≤ ⌊gold⌋ := Int.floor_nonneg.mpr hg
  have hfuel : gold - ((0 : ℤ) : ℚ) < (((⌊gold⌋ + 1).toNat : ℕ) : ℚ) := by
    have h1 : ((⌊gold⌋ + 1).toNat : ℤ) = ⌊gold⌋ + 1 := Int.toNat_of_nonneg (by omega)
    have h2 : gold < ((⌊gold⌋ : ℚ) + 1) := Int.lt_floor_add_one gold
    have h3 : (((⌊gold⌋ + 1).toNat : ℕ) : ℚ) = ((⌊gold⌋ : ℚ) + 1) := by
      exact_mod_cast congrArg (fun z : ℤ => (z : ℚ)) h1
    rw [h3]
    simp only [Int.cast_zero, sub_zero]
    exact h2
  exact maxAffordableAux_spec c gold owned hc ((⌊gold⌋ + 1).toNat) 0 0 (by simp [bulkSum])
    (by simpa using hg) hfuel

lemma maxAffordable_zero_of_unaffordable (c : ℕ → ℤ) (owned : ℕ) (gold : ℚ)
    (hc : ∀ n, 1 ≤ c n) (hg : 0 ≤ gold) (hun : gold < (c owned : ℚ)) :
    maxAffordable c owned gold = (0, 0) := by
  obtain ⟨h1, h2, _⟩ := maxAffordable_spec c owned gold hc hg
  rcases Nat.eq_zero_or_pos (maxAffordable c owned gold).1 with h0 | h0
  · have : (maxAffordable c owned gold).2 = 0 := by rw [h1, h0]; rfl
    rw [Prod.ext_iff]
    exact ⟨h0, this⟩
  · exfalso
    have hlow := le_bulkSum_of_pos c owned hc _ h0
    rw [← h1] at hlow
    have : (c owned : ℚ) ≤ ((maxAffordable c owned gold).2 : ℚ) := by exact_mod_cast hlow
    linarith

/-- C5: the max-buy search (the max branch of calculateBulkCost, which is
also the loop duplicated inside buyJob) greedily accumulates the per-step
cost while affordable: the accumulated totalCost is exactly the bulk cost
of the returned count, it never exceeds the available gold, one more unit
would exceed the gold, and an unaffordable first unit yields count 0 and
cost 0.  The loop terminates: the fuel floor(gold) + 1 used in the model is
sufficient because every step adds a positive integer cost (the hypothesis
hc, which holds for every kind in the balance table since Math.pow of a
nonnegative base is nonnegative). -/
theorem maxAffordable_greedy_sound (pow : ℕ → ℚ → ℚ) (red : ℚ) (ty : String) (owned : ℕ)
    (gold : ℚ) (count : ℕ) (total : ℤ)
    (hc : ∀ n, 1 ≤ calculateNextCost pow red ty n) (hg : 0 ≤ gold)
    (h : maxAffordable (fun n => calculateNextCost pow red ty n) owned gold = (count, total)) :
    calculateBulkCost pow red gold ty owned BuyQuantity.max = total ∧
      total = calculateBulkCost pow red gold ty owned (BuyQuantity.num count) ∧
      (total : ℚ) ≤ gold ∧
      gold < (calculateBulkCost pow red gold ty owned (BuyQuantity.num (count + 1)) : ℚ) ∧
      ((gold : ℚ) < (calculateNextCost pow red ty owned : ℚ) → count = 0 ∧ total = 0) := by
  obtain ⟨h1, h2, h3⟩ := maxAffordable_spec (fun n => calculateNextCost pow red ty n) owned gold hc hg
  rw [h] at h1 h2 h3
  simp only at h1 h2 h3
  refine ⟨?_, ?_, h2, ?_, ?_⟩
  · simp only [calculateBulkCost, h]
  · simpa [calculateBulkCost] using h1
  · have : calculateBulkCost pow red gold ty owned (BuyQuantity.num (count + 1))
        = total + calculateNextCost pow red ty (owned + count) := by
      simp only [calculateBulkCost, bulkSum]
      rw [← h1]
    rw [this]
    push_cast
    exact h3
  · intro hun
    have h0 := maxAffordable_zero_of_unaffordable (fun n => calculateNextCost pow red ty n)
      owned gold hc hg hun
    rw [h] at h0
    exact ⟨congrArg Prod.fst h0, congrArg Prod.snd h0⟩

lemma powSample_miners_cost_pos : ∀ n : ℕ, 1 ≤ calculateNextCost powSample 0 ("miners") n := by
  intro n
  have hform : calculateNextCost powSample 0 ("miners") n
      = ⌊(10 : ℚ) * (1 + (15/100) * (n : ℚ))⌋ := by
    simp [calculateNextCost, jobsLookup, minersData, powSample]
  rw [hform, Int.le_floor]
  have hn : (0 : ℚ) ≤ (n : ℚ) := Nat.cast_nonneg n
  push_cast
  nlinarith

/-- Witness for C5: with the sample power function, zero reduction, the
miners curve, nothing owned and 25 gold, the search buys 2 units for 21
gold (costs 10 and 11; a third unit at 13 would overshoot). -/
theorem maxAffordable_greedy_sound_witness :
    maxAffordable (fun n => calculateNextCost powSample 0 ("miners") n) 0 25 = (2, 21) ∧
      (0 : ℚ) ≤ 25 ∧
      calculateBulkCost powSample 0 25 ("miners") 0 BuyQuantity.max = 21 := by
  have h : maxAffordable (fun n => calculateNextCost powSample 0 ("miners") n) 0 25 = (2, 21) := by
    norm_num [maxAffordable, maxAffordableAux, calculateNextCost, jobsLookup, minersData,
      powSample]
  refine ⟨h, by norm_num, ?_⟩
  exact (maxAffordable_greedy_sound powSample 0 ("miners") 0 25 2 21
    powSample_miners_cost_pos (by norm_num) h).1

/-- C6 (amended): calculateNextCost floors the growth formula and applies
the second reduced floor for job kinds whenever the reduction is a
nonnegative fraction, exactly as the spec formula specUnitCost; for upgrade
identifiers, however, the reduction step is skipped and the cost is the bare
floored growth formula.  With the concrete miners curve (baseCost 10, rate
0.15, exponent 0.9) and no reduction the cost is 10 at owned 0 and 11 at
owned 1. -/
theorem calculateNextCost_formula (pow : ℕ → ℚ → ℚ) (red : ℚ) :
    (∀ ty jd owned, 0 ≤ red → jobsLookup ty = some jd →
        calculateNextCost pow red ty owned = specUnitCost pow red ty owned) ∧
      (∀ uid ud owned, upgradesLookup uid = some ud →
        calculateNextCost pow red uid owned
          = ⌊(ud.baseCost : ℚ) * (1 + ud.costIncreaseRate * pow owned ud.costExponent)⌋) ∧
      (pow 0 (9/10) = 0 → calculateNextCost pow 0 ("miners") 0 = 10) ∧
      (pow 1 (9/10) = 1 → calculateNextCost pow 0 ("miners") 1 = 11) := by
  refine ⟨?_, ?_, ?_, ?_⟩
  · intro ty jd owned hred hjd
    simp only [calculateNextCost, specUnitCost, hjd]
    rcases lt_or_eq_of_le hred with h | h
    · rw [if_pos h]
    · rw [if_neg (by rw [← h]; exact lt_irrefl 0)]
      rw [← h]
      norm_num
  · intro uid ud owned hud
    have hj : jobsLookup uid = none := by
      unfold upgradesLookup at hud
      split at hud <;> simp_all [jobsLookup]
    simp only [calculateNextCost, hj, hud]
  · intro h0
    have hform : calculateNextCost pow 0 ("miners") 0
        = ⌊(10 : ℚ) * (1 + (15/100) * pow 0 (9/10))⌋ := by
      simp [calculateNextCost, jobsLookup, minersData]
    rw [hform, h0]
    norm_num
  · intro h1
    have hform : calculateNextCost pow 0 ("miners") 1
        = ⌊(10 : ℚ) * (1 + (15/100) * pow 1 (9/10))⌋ := by
      simp [calculateNextCost, jobsLookup, minersData]
    rw [hform, h1]
    norm_num

/-- Counterexample for C6: the claim says the reduced second floor applies
identically to jobs and upgrades, but with the 15 percent mercantile-emblem
reduction active the upgrade cost of miner-sharp-pickaxe at level 0 stays
50, while the claimed formula yields 42. -/
theorem calculateNextCost_upgrade_reduction_cex :
    calculateNextCost powSample (15/100) ("miner-sharp-pickaxe") 0 = 50 ∧
      specUnitCost powSample (15/100) ("miner-sharp-pickaxe") 0 = 42 := by
  have hj : jobsLookup ("miner-sharp-pickaxe") = none := rfl
  have hu : upgradesLookup ("miner-sharp-pickaxe") = some minerSharpPickaxeData := rfl
  constructor <;>
    norm_num [calculateNextCost, specUnitCost, hj, hu, minerSharpPickaxeData, powSample]

/-- Witness for C6 (amended): concrete evaluations of every conjunct, with
the sample power function: the reduced job cost (miners at reduction 3/20
costs floor(floor(10) * 17/20) = 8 both in the source and by the spec
formula), the bare upgrade cost, and the two scenario values. -/
theorem calculateNextCost_formula_witness :
    (0 : ℚ) ≤ 3/20 ∧
      jobsLookup ("miners") = some minersData ∧
      calculateNextCost powSample (3/20) ("miners") 0 = specUnitCost powSample (3/20) ("miners") 0 ∧
      upgradesLookup ("wizard-better-focus") = some wizardBetterFocusData ∧
      calculateNextCost powSample 0 ("wizard-better-focus") 2
        = ⌊(wizardBetterFocusData.baseCost : ℚ)
            * (1 + wizardBetterFocusData.costIncreaseRate
                * powSample 2 wizardBetterFocusData.costExponent)⌋ ∧
      powSample 0 (9/10) = 0 ∧ calculateNextCost powSample 0 ("miners") 0 = 10 ∧
      powSample 1 (9/10) = 1 ∧ calculateNextCost powSample 0 ("miners") 1 = 11 := by
  refine ⟨by norm_num, rfl, ?_, rfl, ?_, by norm_num [powSample], ?_,
    by norm_num [powSample], ?_⟩
  · exact (calculateNextCost_formula powSample (3/20)).1 ("miners") minersData 0
      (by norm_num) rfl
  · exact (calculateNextCost_formula powSample 0).2.1 ("wizard-better-focus")
      wizardBetterFocusData 2 rfl
  · exact (calculateNextCost_formula powSample 0).2.2.1 (by norm_num [powSample])
  · exact (calculateNextCost_formula powSample 0).2.2.2 (by norm_num [powSample])

/-- C9 (amended): the purchase operations reject an identifier outside the
job and upgrade registries with the invalid-kind error and touch nothing,
but calculateNextCost itself (after logging) returns cost 0 for such an
identifier rather than failing. -/
theorem unknown_kind_behavior (pow : ℕ → ℚ → ℚ) (red : ℚ) (s : GameState) (ty : String)
    (q : BuyQuantity) (owned : ℕ) (hj : jobsLookup ty = none) (hu : upgradesLookup ty = none) :
    buyJob pow s ty q = Except.error BuyError.invalidKind ∧
      buyUpgrade pow s ty q = Except.error BuyError.invalidKind ∧
      calculateNextCost pow red ty owned = 0 := by
  refine ⟨?_, ?_, ?_⟩
  · unfold buyJob
    split <;> first | rfl | simp_all [jobsLookup]
  · unfold buyUpgrade
    split <;> first | rfl | simp_all [upgradesLookup]
  · simp only [calculateNextCost, hj, hu]

/-- Counterexample for C9: for the unknown identifier dragons the cost
computation silently yields 0, and so does the bulk cost of three of them —
the zero-cost default the claim rules out. -/
theorem unknown_kind_zero_cost_cex :
    calculateNextCost powSample 0 ("dragons") 0 = 0 ∧
      calculateBulkCost powSample 0 100 ("dragons") 0 (BuyQuantity.num 3) = 0 := by
  have hj : jobsLookup ("dragons") = none := rfl
  have hu : upgradesLookup ("dragons") = none := rfl
  constructor <;> norm_num [calculateNextCost, calculateBulkCost, bulkSum, hj, hu]

/-- Witness for C9 (amended) at the concrete unknown identifier dragons. -/
theorem unknown_kind_behavior_witness :
    jobsLookup ("dragons") = none ∧ upgradesLookup ("dragons") = none ∧
      buyJob powSample initialGameState ("dragons") (BuyQuantity.num 1)
        = Except.error BuyError.invalidKind := by
  refine ⟨rfl, rfl, ?_⟩
  exact (unknown_kind_behavior powSample 0 initialGameState ("dragons") (BuyQuantity.num 1) 0
    rfl rfl).1

/-! ### Lemmas about the purchase transactions -/

lemma buyJob_miners_ok (pow : ℕ → ℚ → ℚ) (s t : GameState) (q : BuyQuantity)
    (h : buyJob pow s ("miners") q = Except.ok t) :
    t = { s with
      gold := s.gold - (jobTotalCost pow s ("miners") q : ℚ)
      minerJobs := s.minerJobs + buyCount pow s ("miners") q
      goldPerSec := s.goldPerSec + (buyCount pow s ("miners") q : ℚ) * minersData.goldPerSecond
      minerJobGPS := minersData.goldPerSecond
      minerJobCost :=
        calculateNextCost pow s.artifactEffects.jobCostReduction ("miners")
          (s.minerJobs + buyCount pow s ("miners") q) } := by
  simp only [buyJob] at h
  split_ifs at h
  exact Except.ok.inj h.symm

lemma buyJob_soldiers_ok (pow : ℕ → ℚ → ℚ) (s t : GameState) (q : BuyQuantity)
    (h : buyJob pow s ("soldiers") q = Except.ok t) :
    t = { s with
      gold := s.gold - (jobTotalCost pow s ("soldiers") q : ℚ)
      soldierJobs := s.soldierJobs + buyCount pow s ("soldiers") q
      goldPerSec := s.goldPerSec + (buyCount pow s ("soldiers") q : ℚ) * soldiersData.goldPerSecond
      soldierJobGPS := soldiersData.goldPerSecond
      soldierJobCost :=
        calculateNextCost pow s.artifactEffects.jobCostReduction ("soldiers")
          (s.soldierJobs + buyCount pow s ("soldiers") q) } := by
  simp only [buyJob] at h
  split_ifs at h
  exact Except.ok.inj h.symm

lemma buyJob_wizards_ok (pow : ℕ → ℚ → ℚ) (s t : GameState) (q : BuyQuantity)
    (h : buyJob pow s ("wizards") q = Except.ok t) :
    t = { s with
      gold := s.gold - (jobTotalCost pow s ("wizards") q : ℚ)
      wizardJobs := s.wizardJobs + buyCount pow s ("wizards") q
      goldPerClick := s.goldPerClick + (buyCount pow s ("wizards") q : ℚ) * wizardsData.goldPerClick
      wizardJobCost :=
        calculateNextCost pow s.artifactEffects.jobCostReduction ("wizards")
          (s.wizardJobs + buyCount pow s ("wizards") q) } := by
  simp only [buyJob] at h
  split_ifs at h
  exact Except.ok.inj h.symm

/-- C1 (amended): a successful buyJob updates the derived yields
incrementally — it adds numToBuy times the per-unit base yield from the
balance table to the raw goldPerSec (goldPerClick for wizards) and leaves
the other derived yield untouched; it does not recompute them from scratch,
so the stored yields need not agree with recalculateGoldRates afterwards. -/
theorem buyJob_incremental_rates (pow : ℕ → ℚ → ℚ) (s t : GameState) (q : BuyQuantity) :
    (buyJob pow s ("miners") q = Except.ok t →
        t.goldPerSec = s.goldPerSec + (buyCount pow s ("miners") q : ℚ) * minersData.goldPerSecond
          ∧ t.goldPerClick = s.goldPerClick) ∧
      (buyJob pow s ("soldiers") q = Except.ok t →
        t.goldPerSec
            = s.goldPerSec + (buyCount pow s ("soldiers") q : ℚ) * soldiersData.goldPerSecond
          ∧ t.goldPerClick = s.goldPerClick) ∧
      (buyJob pow s ("wizards") q = Except.ok t →
        t.goldPerClick
            = s.goldPerClick + (buyCount pow s ("wizards") q : ℚ) * wizardsData.goldPerClick
          ∧ t.goldPerSec = s.goldPerSec) := by
  refine ⟨fun h => ?_, fun h => ?_, fun h => ?_⟩
  · rw [buyJob_miners_ok pow s t q h]
    exact ⟨rfl, rfl⟩
  · rw [buyJob_soldiers_ok pow s t q h]
    exact ⟨rfl, rfl⟩
  · rw [buyJob_wizards_ok pow s t q h]
    exact ⟨rfl, rfl⟩

/-- Counterexample for C1: in a state with prestige multiplier 2 (50
prestige points) and 10 gold, buying one miner succeeds and stores
goldPerSec = 1, while the from-scratch recomputation of the same state
yields 2 — the purchase does not recompute the derived yield. -/
theorem buyJob_not_recomputed_cex :
    (buyJob powSample
          { initialGameState with gold := 10, prestigePoints := 50, prestigeBonusMultiplier := 2 }
          ("miners") (BuyQuantity.num 1)).toOption.map
        (fun t => (t.goldPerSec, (recalculateGoldRates t).goldPerSec)) = some (1, 2) ∧
      (1 : ℚ) ≠ 2 := by
  have hc : calculateNextCost powSample 0 ("miners") 0 = 10 := by
    norm_num [calculateNextCost, jobsLookup, minersData, powSample]
  have hc1 : calculateNextCost powSample 0 ("miners") 1 = 11 := by
    norm_num [calculateNextCost, jobsLookup, minersData, powSample]
  constructor
  · simp only [buyJob, buyCount, ownedJobs, jobTotalCost, calculateBulkCost, bulkSum,
      initialGameState, identityEffects, recalculateGoldRates]
    norm_num [hc, hc1, Except.toOption, minersData, baseGoldPerClick]
  · norm_num

/-- Witness for C1 (amended): buying one miner from the start state with 10
gold succeeds; the stored goldPerSec becomes the old value plus 1 * 1. -/
theorem buyJob_incremental_rates_witness :
    buyJob powSample { initialGameState with gold := 10 } ("miners") (BuyQuantity.num 1)
        = Except.ok
          { initialGameState with gold := 0, minerJobs := 1, goldPerSec := 1, minerJobCost := 11 } ∧
      ({ initialGameState with
            gold := 0, minerJobs := 1, goldPerSec := 1, minerJobCost := 11 } :
          GameState).goldPerSec
        = ({ initialGameState with gold := 10 } : GameState).goldPerSec
          + (buyCount powSample { initialGameState with gold := 10 } ("miners")
                (BuyQuantity.num 1) : ℚ) * minersData.goldPerSecond := by
  have hc : calculateNextCost powSample 0 ("miners") 0 = 10 := by
    norm_num [calculateNextCost, jobsLookup, minersData, powSample]
  have hc1 : calculateNextCost powSample 0 ("miners") 1 = 11 := by
    norm_num [calculateNextCost, jobsLookup, minersData, powSample]
  have h : buyJob powSample { initialGameState with gold := 10 } ("miners") (BuyQuantity.num 1)
      = Except.ok
        { initialGameState with gold := 0, minerJobs := 1, goldPerSec := 1, minerJobCost := 11 } := by
    simp only [buyJob, buyCount, ownedJobs, jobTotalCost, calculateBulkCost, bulkSum,
      initialGameState, identityEffects]
    norm_num [hc, hc1, minersData]
  exact ⟨h, ((buyJob_incremental_rates powSample { initialGameState with gold := 10 }
    { initialGameState with gold := 0, minerJobs := 1, goldPerSec := 1, minerJobCost := 11 }
    (BuyQuantity.num 1)).1 h).1⟩

/-- C2 (amended): buyJob is fully atomic on failure — for a known job kind
it fails with the insufficient-funds branch (leaving the state untouched,
since the failure branch returns without mutating) whenever the gold is
below the total cost or the resolved count is 0.  buyUpgrade, however,
guards only on gold >= totalCost: it is atomic when the gold is below the
total cost, but a resolved count of 0 (a max purchase with an unaffordable
first level) slips through its success branch — see the counterexample. -/
theorem purchase_failure_atomic :
    (∀ (pow : ℕ → ℚ → ℚ) (s : GameState) (ty : String) (q : BuyQuantity),
        jobsLookup ty ≠ none →
        (s.gold < (jobTotalCost pow s ty q : ℚ) ∨ buyCount pow s ty q = 0) →
        buyJob pow s ty q = Except.error BuyError.insufficientFunds) ∧
      (∀ (pow : ℕ → ℚ → ℚ) (s : GameState) (uid : String) (q : BuyQuantity),
        upgradesLookup uid ≠ none →
        s.gold < (upgradeTotalCost pow s uid q : ℚ) →
        buyUpgrade pow s uid q = Except.error BuyError.insufficientFunds) := by
  constructor
  · intro pow s ty q hj hfail
    rw [buyJob.eq_def]
    split
    · rw [if_neg]
      rintro ⟨h1, h2⟩
      rcases hfail with h | h
      · exact absurd h1 (not_le.mpr h)
      · omega
    · rw [if_neg]
      rintro ⟨h1, h2⟩
      rcases hfail with h | h
      · exact absurd h1 (not_le.mpr h)
      · omega
    · rw [if_neg]
      rintro ⟨h1, h2⟩
      rcases hfail with h | h
      · exact absurd h1 (not_le.mpr h)
      · omega
    · exfalso
      apply hj
      unfold jobsLookup
      split <;> simp_all
  · intro pow s uid q hu hfail
    rw [buyUpgrade.eq_def]
    split
    · rw [if_neg]
      exact not_le.mpr hfail
    · rw [if_neg]
      exact not_le.mpr hfail
    · rw [if_neg]
      exact not_le.mpr hfail
    · exfalso
      apply hu
      unfold upgradesLookup
      split <;> simp_all

/-- Counterexample for C2: with 0 gold, one miner, prestige multiplier 2
and a consistent goldPerSec of 2, a max purchase of miner-sharp-pickaxe
resolves to count 0 — the claim demands an insufficient-funds failure with
no state change, but the call takes the success branch (so it also saves)
and rewrites goldPerSec to 1, dropping the prestige multiplier. -/
theorem buyUpgrade_zero_count_not_atomic_cex :
    (buyUpgrade powSample
          { initialGameState with
            gold := 0
            minerJobs := 1
            goldPerSec := 2
            prestigePoints := 50
            prestigeBonusMultiplier := 2 }
          ("miner-sharp-pickaxe") BuyQuantity.max).toOption.map GameState.goldPerSec
        = some 1 ∧
      ({ initialGameState with
          gold := 0
          minerJobs := 1
          goldPerSec := 2
          prestigePoints := 50
          prestigeBonusMultiplier := 2 } : GameState).goldPerSec = 2 ∧
      (1 : ℚ) ≠ 2 := by
  have hc : calculateNextCost powSample 0 ("miner-sharp-pickaxe") 0 = 50 := by
    have hj : jobsLookup ("miner-sharp-pickaxe") = none := rfl
    have hu : upgradesLookup ("miner-sharp-pickaxe") = some minerSharpPickaxeData := rfl
    norm_num [calculateNextCost, hj, hu, minerSharpPickaxeData, powSample]
  have hm : maxAffordable (fun n => calculateNextCost powSample 0 ("miner-sharp-pickaxe") n) 0 0
      = (0, 0) := by
    norm_num [maxAffordable, maxAffordableAux, hc]
  refine ⟨?_, by norm_num [initialGameState], by norm_num⟩
  simp only [buyUpgrade, upgradeBuyCount, upgradeLevel, upgradeTotalCost, calculateBulkCost,
    initialGameState, identityEffects, hm]
  norm_num [hc, Except.toOption, minerSharpPickaxeData]

/-- Witness for C2 (amended): buying one miner with 5 gold (cost 10) fails
with insufficient funds, and buying one miner-sharp-pickaxe level with 0
gold (cost 50) fails likewise. -/
theorem purchase_failure_atomic_witness :
    jobsLookup ("miners") ≠ none ∧
      ({ initialGameState with gold := 5 } : GameState).gold
          < (jobTotalCost powSample { initialGameState with gold := 5 } ("miners")
              (BuyQuantity.num 1) : ℚ) ∧
      buyJob powSample { initialGameState with gold := 5 } ("miners") (BuyQuantity.num 1)
          = Except.error BuyError.insufficientFunds ∧
      upgradesLookup ("miner-sharp-pickaxe") ≠ none ∧
      initialGameState.gold
          < (upgradeTotalCost powSample initialGameState ("miner-sharp-pickaxe")
              (BuyQuantity.num 1) : ℚ) ∧
      buyUpgrade powSample initialGameState ("miner-sharp-pickaxe") (BuyQuantity.num 1)
          = Except.error BuyError.insufficientFunds := by
  have hc : calculateNextCost powSample 0 ("miners") 0 = 10 := by
    norm_num [calculateNextCost, jobsLookup, minersData, powSample]
  have hcu : calculateNextCost powSample 0 ("miner-sharp-pickaxe") 0 = 50 := by
    have hj : jobsLookup ("miner-sharp-pickaxe") = none := rfl
    have hu : upgradesLookup ("miner-sharp-pickaxe") = some minerSharpPickaxeData := rfl
    norm_num [calculateNextCost, hj, hu, minerSharpPickaxeData, powSample]
  have h1 : ({ initialGameState with gold := 5 } : GameState).gold
      < (jobTotalCost powSample { initialGameState with gold := 5 } ("miners")
          (BuyQuantity.num 1) : ℚ) := by
    simp only [jobTotalCost, calculateBulkCost, bulkSum, ownedJobs, initialGameState,
      identityEffects]
    norm_num [hc]
  have h2 : initialGameState.gold
      < (upgradeTotalCost powSample initialGameState ("miner-sharp-pickaxe")
          (BuyQuantity.num 1) : ℚ) := by
    simp only [upgradeTotalCost, calculateBulkCost, bulkSum, upgradeLevel, initialGameState,
      identityEffects]
    norm_num [hcu]
  refine ⟨by simp [jobsLookup], h1, ?_, by simp [upgradesLookup], h2, ?_⟩
  · exact purchase_failure_atomic.1 powSample { initialGameState with gold := 5 } ("miners")
      (BuyQuantity.num 1) (by simp [jobsLookup]) (Or.inl h1)
  · exact purchase_failure_atomic.2 powSample initialGameState ("miner-sharp-pickaxe")
      (BuyQuantity.num 1) (by simp [upgradesLookup]) h2

/-- C4: whenever buyJob succeeds for miners or soldiers it overwrites the
per-unit yield rate with the base goldPerSecond from the balance table,
discarding any upgrade or artifact multipliers previously applied to it. -/
theorem buyJob_overwrites_unit_rate (pow : ℕ → ℚ → ℚ) (s t : GameState) (q : BuyQuantity) :
    (buyJob pow s ("miners") q = Except.ok t → t.minerJobGPS = minersData.goldPerSecond) ∧
      (buyJob pow s ("soldiers") q = Except.ok t
        → t.soldierJobGPS = soldiersData.goldPerSecond) := by
  refine ⟨fun h => ?_, fun h => ?_⟩
  · rw [buyJob_miners_ok pow s t q h]
  · rw [buyJob_soldiers_ok pow s t q h]

/-- Witness for C4: from a state whose miner rate was boosted to 27/20 (the
mystic-pickaxe multiplier), buying one miner succeeds and resets the rate
to the base value 1. -/
theorem buyJob_overwrites_unit_rate_witness :
    buyJob powSample { initialGameState with gold := 10, minerJobGPS := 27/20 } ("miners")
        (BuyQuantity.num 1)
        = Except.ok
          { initialGameState with
            gold := 0, minerJobs := 1, goldPerSec := 1, minerJobGPS := 1, minerJobCost := 11 } ∧
      ({ initialGameState with gold := 10, minerJobGPS := 27/20 } : GameState).minerJobGPS
          = 27/20 ∧
      ({ initialGameState with
          gold := 0, minerJobs := 1, goldPerSec := 1, minerJobGPS := 1, minerJobCost := 11 } :
        GameState).minerJobGPS = minersData.goldPerSecond := by
  have hc : calculateNextCost powSample 0 ("miners") 0 = 10 := by
    norm_num [calculateNextCost, jobsLookup, minersData, powSample]
  have hc1 : calculateNextCost powSample 0 ("miners") 1 = 11 := by
    norm_num [calculateNextCost, jobsLookup, minersData, powSample]
  have h : buyJob powSample { initialGameState with gold := 10, minerJobGPS := 27/20 } ("miners")
      (BuyQuantity.num 1)
      = Except.ok
        { initialGameState with
          gold := 0, minerJobs := 1, goldPerSec := 1, minerJobGPS := 1, minerJobCost := 11 } := by
    simp only [buyJob, buyCount, ownedJobs, jobTotalCost, calculateBulkCost, bulkSum,
      initialGameState, identityEffects]
    norm_num [hc, hc1, minersData]
  refine ⟨h, by norm_num [initialGameState], ?_⟩
  exact (buyJob_overwrites_unit_rate powSample
    { initialGameState with gold := 10, minerJobGPS := 27/20 }
    { initialGameState with
      gold := 0, minerJobs := 1, goldPerSec := 1, minerJobGPS := 1, minerJobCost := 11 }
    (BuyQuantity.num 1)).1 h

/-! ### Lemmas about the artifact effect pipeline -/

/-- Every artifact effect, written as a single conditional update: three
per-unit rate multiplications and the accumulator mutations, each gated on
the artifact id. -/
lemma applyArtifactEffect_eq (aid : String) (s : GameState) :
    applyArtifactEffect aid s = { s with
      minerJobGPS :=
        if aid = "mystic-pickaxe" then s.minerJobGPS * (135/100) else s.minerJobGPS
      soldierJobGPS :=
        if aid = "heroes-medallion" then s.soldierJobGPS * (14/10) else s.soldierJobGPS
      wizardJobGPC :=
        if aid = "ancient-scroll" then s.wizardJobGPC * (135/100) else s.wizardJobGPC
      artifactEffects := { s.artifactEffects with
        goldMultiplier := s.artifactEffects.goldMultiplier
          * (if aid = "ancient-coin" then 12/10 else 1)
          * (if aid = "midas-touch" then 15/10 else 1)
          * (if aid = "philosophers-stone" then 125/100 else 1)
        clickMultiplier :=
          if aid = "lucky-clover" then s.artifactEffects.clickMultiplier * (125/100)
          else s.artifactEffects.clickMultiplier
        jobCostReduction :=
          if aid = "mercantile-emblem" then 15/100 else s.artifactEffects.jobCostReduction
        srGold := if aid = "bottomless-pouch" then 100 else s.artifactEffects.srGold
        srMiners := if aid = "philosophers-stone" then 3 else s.artifactEffects.srMiners
        srSoldiers := if aid = "philosophers-stone" then 3 else s.artifactEffects.srSoldiers
        srWizards := if aid = "philosophers-stone" then 3 else s.artifactEffects.srWizards } } := by
  unfold applyArtifactEffect
  by_cases h1 : aid = "ancient-coin"
  · subst h1; simp +decide
  simp only [if_neg h1]
  by_cases h2 : aid = "mystic-pickaxe"
  · subst h2; simp +decide
  simp only [if_neg h2]
  by_cases h3 : aid = "lucky-clover"
  · subst h3; simp +decide
  simp only [if_neg h3]
  by_cases h4 : aid = "heroes-medallion"
  · subst h4; simp +decide
  simp only [if_neg h4]
  by_cases h5 : aid = "ancient-scroll"
  · subst h5; simp +decide
  simp only [if_neg h5]
  by_cases h6 : aid = "mercantile-emblem"
  · subst h6; simp +decide
  simp only [if_neg h6]
  by_cases h7 : aid = "bottomless-pouch"
  · subst h7; simp +decide
  simp only [if_neg h7]
  by_cases h8 : aid = "midas-touch"
  · subst h8; simp +decide
  simp only [if_neg h8]
  by_cases h9 : aid = "philosophers-stone"
  · subst h9; simp +decide
  simp only [if_neg h9]
  simp

lemma applyArtifactEffect_comm (a b : String) (s : GameState) :
    applyArtifactEffect a (applyArtifactEffect b s)
      = applyArtifactEffect b (applyArtifactEffect a s) := by
  rw [applyArtifactEffect_eq b s, applyArtifactEffect_eq a, applyArtifactEffect_eq a s,
    applyArtifactEffect_eq b]
  dsimp only
  simp only [GameState.mk.injEq, ArtifactEffects.mk.injEq]
  repeat' apply And.intro
  all_goals first | trivial | (split_ifs <;> first | rfl | ring)

lemma applyArtifactEffect_unlockedIds (aid : String) (s : GameState) :
    (applyArtifactEffect aid s).unlockedIds = s.unlockedIds := by
  rw [applyArtifactEffect_eq]

lemma applyArtifactEffect_setIds (aid : String) (s : GameState) (l : List String) :
    applyArtifactEffect aid { s with unlockedIds := l }
      = { applyArtifactEffect aid s with unlockedIds := l } := by
  rw [applyArtifactEffect_eq, applyArtifactEffect_eq aid s]

lemma applyArtifactEffect_accum_congr (aid : String) (s₁ s₂ : GameState)
    (h : s₁.artifactEffects = s₂.artifactEffects) :
    (applyArtifactEffect aid s₁).artifactEffects = (applyArtifactEffect aid s₂).artifactEffects := by
  rw [applyArtifactEffect_eq, applyArtifactEffect_eq]
  dsimp only
  rw [h]

lemma foldl_apply_setIds (l ids : List String) (s : GameState) :
    List.foldl (fun t aid => applyArtifactEffect aid t) { s with unlockedIds := ids } l
      = { List.foldl (fun t aid => applyArtifactEffect aid t) s l with unlockedIds := ids } := by
  induction l generalizing s with
  | nil => rfl
  | cons a l ih =>
      simp only [List.foldl_cons, applyArtifactEffect_setIds]
      exact ih (applyArtifactEffect a s)

lemma foldl_apply_unlockedIds (l : List String) (s : GameState) :
    (List.foldl (fun t aid => applyArtifactEffect aid t) s l).unlockedIds = s.unlockedIds := by
  induction l generalizing s with
  | nil => rfl
  | cons a l ih =>
      simp only [List.foldl_cons, ih, applyArtifactEffect_unlockedIds]

lemma foldl_apply_accum_congr (l : List String) (s₁ s₂ : GameState)
    (h : s₁.artifactEffects = s₂.artifactEffects) :
    (List.foldl (fun t aid => applyArtifactEffect aid t) s₁ l).artifactEffects
      = (List.foldl (fun t aid => applyArtifactEffect aid t) s₂ l).artifactEffects := by
  induction l generalizing s₁ s₂ with
  | nil => exact h
  | cons a l ih =>
      simp only [List.foldl_cons]
      exact ih _ _ (applyArtifactEffect_accum_congr a s₁ s₂ h)

lemma recalculateGoldRates_accum (s : GameState) :
    (recalculateGoldRates s).artifactEffects = s.artifactEffects := rfl

lemma recalculateGoldRates_unlockedIds (s : GameState) :
    (recalculateGoldRates s).unlockedIds = s.unlockedIds := rfl

lemma recalculateGoldRates_setIds (s : GameState) (l : List String) :
    recalculateGoldRates { s with unlockedIds := l }
      = { recalculateGoldRates s with unlockedIds := l } := rfl

lemma applyArtifactEffects_unlockedIds (s : GameState) :
    (applyArtifactEffects s).unlockedIds = s.unlockedIds := by
  unfold applyArtifactEffects
  rw [recalculateGoldRates_unlockedIds, foldl_apply_unlockedIds]

/-- C3 (amended): the modifier accumulator is rebuilt from identity on
every call, so the accumulator produced by recomputing twice from the same
unlocked set equals the one produced by recomputing once, and iterating the
unlocked set in any other order yields the same resulting game state
(every pair of artifact effects commutes).  The full game state, however,
is not idempotent under recomputation — see the counterexample: the three
artifacts that multiply per-unit rate fields directly stack again on every
call. -/
theorem applyArtifactEffects_accum_idem_perm :
    (∀ s : GameState,
        (applyArtifactEffects (applyArtifactEffects s)).artifactEffects
          = (applyArtifactEffects s).artifactEffects) ∧
      (∀ (s : GameState) (l₂ : List String), s.unlockedIds.Perm l₂ →
        applyArtifactEffects { s with unlockedIds := l₂ }
          = { applyArtifactEffects s with unlockedIds := l₂ }) := by
  constructor
  · intro s
    have h1 : (applyArtifactEffects (applyArtifactEffects s)).artifactEffects
        = (List.foldl (fun t aid => applyArtifactEffect aid t)
            { applyArtifactEffects s with artifactEffects := identityEffects }
            (applyArtifactEffects s).unlockedIds).artifactEffects := rfl
    rw [h1, applyArtifactEffects_unlockedIds,
      foldl_apply_accum_congr s.unlockedIds
        { applyArtifactEffects s with artifactEffects := identityEffects }
        { s with artifactEffects := identityEffects } rfl]
    rfl
  · intro s l₂ hp
    have hcomm : ∀ x ∈ s.unlockedIds, ∀ y ∈ s.unlockedIds, ∀ z : GameState,
        applyArtifactEffect y (applyArtifactEffect x z)
          = applyArtifactEffect x (applyArtifactEffect y z) :=
      fun x _ y _ z => applyArtifactEffect_comm y x z
    have hfold : List.foldl (fun t aid => applyArtifactEffect aid t)
        { s with artifactEffects := identityEffects } s.unlockedIds
        = List.foldl (fun t aid => applyArtifactEffect aid t)
          { s with artifactEffects := identityEffects } l₂ :=
      hp.foldl_eq' hcomm { s with artifactEffects := identityEffects }
    calc applyArtifactEffects { s with unlockedIds := l₂ }
        = recalculateGoldRates
            (List.foldl (fun t aid => applyArtifactEffect aid t)
              { ({ s with artifactEffects := identityEffects } : GameState) with
                unlockedIds := l₂ } l₂) := rfl
      _ = recalculateGoldRates
            { List.foldl (fun t aid => applyArtifactEffect aid t)
                { s with artifactEffects := identityEffects } l₂ with unlockedIds := l₂ } := by
          rw [foldl_apply_setIds]
      _ = recalculateGoldRates
            { List.foldl (fun t aid => applyArtifactEffect aid t)
                { s with artifactEffects := identityEffects } s.unlockedIds with
              unlockedIds := l₂ } := by rw [hfold]
      _ = { applyArtifactEffects s with unlockedIds := l₂ } := by
          rw [recalculateGoldRates_setIds]
          rfl

/-- Counterexample for C3: with only mystic-pickaxe unlocked, running
applyArtifactEffects twice multiplies minerJobGPS by 1.35 twice (to
1.8225), so the resulting game state differs from running it once. -/
theorem applyArtifactEffects_not_idempotent_cex :
    applyArtifactEffects
        (applyArtifactEffects { initialGameState with unlockedIds := ["mystic-pickaxe"] })
      ≠ applyArtifactEffects { initialGameState with unlockedIds := ["mystic-pickaxe"] } := by
  intro h
  have h2 := congrArg GameState.minerJobGPS h
  simp +decide [applyArtifactEffects, applyArtifactEffect, recalculateGoldRates,
    initialGameState, identityEffects, List.foldl_cons, List.foldl_nil] at h2
  norm_num at h2

/-- Witness for C3 (amended): the two-element unlocked set of ancient-coin
and midas-touch, iterated in both orders, produces the same state (their
gold multipliers commute). -/
theorem applyArtifactEffects_accum_idem_perm_witness :
    (["ancient-coin", "midas-touch"] : List String).Perm ["midas-touch", "ancient-coin"] ∧
      applyArtifactEffects
          { initialGameState with unlockedIds := ["midas-touch", "ancient-coin"] }
        = { applyArtifactEffects
              { initialGameState with unlockedIds := ["ancient-coin", "midas-touch"] } with
            unlockedIds := ["midas-touch", "ancient-coin"] } := by
  have hp : (["ancient-coin", "midas-touch"] : List String).Perm
      ["midas-touch", "ancient-coin"] := by decide
  exact ⟨hp, applyArtifactEffects_accum_idem_perm.2
    { initialGameState with unlockedIds := ["ancient-coin", "midas-touch"] }
    ["midas-touch", "ancient-coin"] hp⟩

/-! ### Lemmas about the prestige engine -/

/-- Floor of the real square root of a rational computed through Nat.sqrt
of the floor: the bridge between the executable prestige formula and the
spec formula floor(sqrt(x)). -/
lemma natSqrt_floor_eq (q : ℚ) : Nat.sqrt ⌊q⌋₊ = ⌊Real.sqrt (q : ℝ)⌋₊ := by
  rcases le_or_lt q 0 with hq | hq
  · have h1 : ⌊q⌋₊ = 0 := Nat.floor_of_nonpos hq
    have h2 : Real.sqrt (q : ℝ) = 0 := by
      apply Real.sqrt_eq_zero_of_nonpos
      exact_mod_cast hq
    rw [h1, h2]
    simp
  · have hqR : (0 : ℝ) < (q : ℝ) := by exact_mod_cast hq
    apply Nat.le_antisymm
    · apply Nat.le_floor
      have hsq : ((Nat.sqrt ⌊q⌋₊ : ℝ)) ^ 2 ≤ (q : ℝ) := by
        have h1 : (Nat.sqrt ⌊q⌋₊) ^ 2 ≤ ⌊q⌋₊ := Nat.sqrt_le' ⌊q⌋₊
        have h2 : ((⌊q⌋₊ : ℚ)) ≤ q := Nat.floor_le hq.le
        have h3 : (((Nat.sqrt ⌊q⌋₊) ^ 2 : ℕ) : ℝ) ≤ ((⌊q⌋₊ : ℕ) : ℝ) := by
          exact_mod_cast h1
        have h4 : ((⌊q⌋₊ : ℕ) : ℝ) ≤ (q : ℝ) := by exact_mod_cast h2
        calc ((Nat.sqrt ⌊q⌋₊ : ℝ)) ^ 2 = (((Nat.sqrt ⌊q⌋₊) ^ 2 : ℕ) : ℝ) := by
              push_cast
              ring
          _ ≤ (q : ℝ) := le_trans h3 h4
      calc ((Nat.sqrt ⌊q⌋₊ : ℝ)) = Real.sqrt (((Nat.sqrt ⌊q⌋₊ : ℝ)) ^ 2) :=
            (Real.sqrt_sq (by positivity)).symm
        _ ≤ Real.sqrt (q : ℝ) := Real.sqrt_le_sqrt hsq
    · rw [Nat.le_sqrt]
      apply Nat.le_floor
      have h5 : ((⌊Real.sqrt (q : ℝ)⌋₊ : ℝ)) ≤ Real.sqrt (q : ℝ) :=
        Nat.floor_le (Real.sqrt_nonneg _)
      have h6 : ((⌊Real.sqrt (q : ℝ)⌋₊ : ℝ)) * ((⌊Real.sqrt (q : ℝ)⌋₊ : ℝ)) ≤ (q : ℝ) := by
        calc ((⌊Real.sqrt (q : ℝ)⌋₊ : ℝ)) * ((⌊Real.sqrt (q : ℝ)⌋₊ : ℝ))
            ≤ Real.sqrt (q : ℝ) * Real.sqrt (q : ℝ) :=
              mul_le_mul h5 h5 (by positivity) (Real.sqrt_nonneg _)
          _ = (q : ℝ) := Real.mul_self_sqrt hqR.le
      exact_mod_cast h6

/-- C7: calculatePrestigePoints is floor(sqrt(lifetimeGold / divisor)) with
the divisor fixed at 1,000,000, returns 0 for nonpositive lifetime gold, 1
at exactly one million lifetime gold, and a zero award makes prestigeGame
fail with the not-eligible error, which leaves the state unmodified. -/
theorem calculatePrestigePoints_award (s : GameState) :
    calculatePrestigePoints s = ⌊Real.sqrt ((s.lifetimeGold : ℝ) / 1000000)⌋₊ ∧
      (s.lifetimeGold ≤ 0 → calculatePrestigePoints s = 0) ∧
      (s.lifetimeGold = 1000000 → calculatePrestigePoints s = 1) ∧
      (calculatePrestigePoints s = 0 → prestigeGame s = Except.error PrestigeError.notEligible) := by
  refine ⟨?_, ?_, ?_, ?_⟩
  · unfold calculatePrestigePoints pointsFormulaDivisor
    by_cases hl : s.lifetimeGold ≤ 0
    · rw [if_pos hl]
      have harg : ((s.lifetimeGold : ℝ) / 1000000) ≤ 0 := by
        apply div_nonpos_of_nonpos_of_nonneg
        · exact_mod_cast hl
        · norm_num
      have h2 : Real.sqrt ((s.lifetimeGold : ℝ) / 1000000) = 0 :=
        Real.sqrt_eq_zero_of_nonpos harg
      rw [h2]
      simp
    · rw [if_neg hl]
      have hcast : ((s.lifetimeGold / 1000000 : ℚ) : ℝ) = (s.lifetimeGold : ℝ) / 1000000 := by
        push_cast
        ring
      rw [natSqrt_floor_eq, hcast]
  · intro hl
    unfold calculatePrestigePoints
    rw [if_pos hl]
  · intro hl
    unfold calculatePrestigePoints pointsFormulaDivisor
    rw [if_neg (by rw [hl]; norm_num), hl]
    norm_num
  · intro h0
    unfold prestigeGame
    rw [h0]
    norm_num

/-- Witness for C7: the start state (lifetime gold 0) earns award 0 and
prestigeGame rejects it; at exactly one million lifetime gold the award
is 1. -/
theorem calculatePrestigePoints_award_witness :
    initialGameState.lifetimeGold ≤ 0 ∧ calculatePrestigePoints initialGameState = 0 ∧
      prestigeGame initialGameState = Except.error PrestigeError.notEligible ∧
      ({ initialGameState with lifetimeGold := 1000000 } : GameState).lifetimeGold = 1000000 ∧
      calculatePrestigePoints { initialGameState with lifetimeGold := 1000000 } = 1 := by
  have hle : initialGameState.lifetimeGold ≤ 0 := by norm_num [initialGameState]
  have h0 : calculatePrestigePoints initialGameState = 0 :=
    (calculatePrestigePoints_award initialGameState).2.1 hle
  have heq : ({ initialGameState with lifetimeGold := 1000000 } : GameState).lifetimeGold
      = 1000000 := rfl
  refine ⟨hle, h0, ?_, heq, ?_⟩
  · exact (calculatePrestigePoints_award initialGameState).2.2.2 h0
  · exact (calculatePrestigePoints_award
      { initialGameState with lifetimeGold := 1000000 }).2.2.1 heq

lemma recalculateGoldRates_prestige_points_aux (t : GameState) :
    (recalculateGoldRates t).prestigePoints = t.prestigePoints := rfl

lemma recalculateGoldRates_prestige_mult_aux (t : GameState) :
    (recalculateGoldRates t).prestigeBonusMultiplier = t.prestigeBonusMultiplier := rfl

lemma recalculateGoldRates_prestige_total_aux (t : GameState) :
    (recalculateGoldRates t).totalPrestiges = t.totalPrestiges := rfl

lemma applyArtifactEffect_prestige (aid : String) (t : GameState) :
    (applyArtifactEffect aid t).prestigePoints = t.prestigePoints
      ∧ (applyArtifactEffect aid t).prestigeBonusMultiplier = t.prestigeBonusMultiplier
      ∧ (applyArtifactEffect aid t).totalPrestiges = t.totalPrestiges := by
  rw [applyArtifactEffect_eq]
  exact ⟨rfl, rfl, rfl⟩

lemma foldl_apply_prestige (l : List String) (t : GameState) :
    (List.foldl (fun u aid => applyArtifactEffect aid u) t l).prestigePoints = t.prestigePoints
      ∧ (List.foldl (fun u aid => applyArtifactEffect aid u) t l).prestigeBonusMultiplier
          = t.prestigeBonusMultiplier
      ∧ (List.foldl (fun u aid => applyArtifactEffect aid u) t l).totalPrestiges
          = t.totalPrestiges := by
  induction l generalizing t with
  | nil => exact ⟨rfl, rfl, rfl⟩
  | cons a l ih =>
      simp only [List.foldl_cons]
      obtain ⟨h1, h2, h3⟩ := ih (applyArtifactEffect a t)
      obtain ⟨g1, g2, g3⟩ := applyArtifactEffect_prestige a t
      exact ⟨h1.trans g1, h2.trans g2, h3.trans g3⟩

lemma applyArtifactEffects_prestige (t : GameState) :
    (applyArtifactEffects t).prestigePoints = t.prestigePoints
      ∧ (applyArtifactEffects t).prestigeBonusMultiplier = t.prestigeBonusMultiplier
      ∧ (applyArtifactEffects t).totalPrestiges = t.totalPrestiges := by
  unfold applyArtifactEffects
  obtain ⟨h1, h2, h3⟩ :=
    foldl_apply_prestige t.unlockedIds { t with artifactEffects := identityEffects }
  exact ⟨h1, h2, h3⟩

lemma unlockFold_fields (pc : ℕ) :
    ∀ (l : List (String × ℕ)) (acc : GameState × List String),
      (List.foldl (unlockStep pc) acc l).1.prestigePoints = acc.1.prestigePoints
        ∧ (List.foldl (unlockStep pc) acc l).1.prestigeBonusMultiplier
            = acc.1.prestigeBonusMultiplier
        ∧ (List.foldl (unlockStep pc) acc l).1.totalPrestiges = acc.1.totalPrestiges
        ∧ ∃ ext, (List.foldl (unlockStep pc) acc l).1.unlockedIds
            = acc.1.unlockedIds ++ ext := by
  intro l
  induction l with
  | nil =>
      intro acc
      exact ⟨rfl, rfl, rfl, ⟨[], by simp⟩⟩
  | cons a l ih =>
      intro acc
      simp only [List.foldl_cons]
      obtain ⟨h1, h2, h3, ⟨ext, hext⟩⟩ := ih (unlockStep pc acc a)
      have hstep1 : (unlockStep pc acc a).1.prestigePoints = acc.1.prestigePoints := by
        unfold unlockStep
        split_ifs <;> rfl
      have hstep2 : (unlockStep pc acc a).1.prestigeBonusMultiplier
          = acc.1.prestigeBonusMultiplier := by
        unfold unlockStep
        split_ifs <;> rfl
      have hstep3 : (unlockStep pc acc a).1.totalPrestiges = acc.1.totalPrestiges := by
        unfold unlockStep
        split_ifs <;> rfl
      have hstep4 : ∃ e, (unlockStep pc acc a).1.unlockedIds = acc.1.unlockedIds ++ e := by
        unfold unlockStep
        split_ifs
        · exact ⟨[a.1], rfl⟩
        · exact ⟨[], by simp⟩
      obtain ⟨e, he⟩ := hstep4
      refine ⟨h1.trans hstep1, h2.trans hstep2, h3.trans hstep3, ⟨e ++ ext, ?_⟩⟩
      rw [hext, he, List.append_assoc]

lemma checkArtifactUnlocks_fields (pc : ℕ) (s : GameState) :
    (checkArtifactUnlocks pc s).1.prestigePoints = s.prestigePoints
      ∧ (checkArtifactUnlocks pc s).1.prestigeBonusMultiplier = s.prestigeBonusMultiplier
      ∧ (checkArtifactUnlocks pc s).1.totalPrestiges = s.totalPrestiges
      ∧ ∃ ext, (checkArtifactUnlocks pc s).1.unlockedIds = s.unlockedIds ++ ext :=
  unlockFold_fields pc artifactOrder (s, [])

/-- C8: a prestigeGame call (modelled as prestigeStep, the identity on the
failure branch) never decreases prestigePoints, prestigeBonusMultiplier or
totalPrestiges, and only ever appends to unlockedArtifacts; the
multiplier-consistency invariant (multiplier = 1 + points * bonusPerPoint,
true of the initial state) is preserved, so the bounds hold across any
sequence of prestige calls. -/
theorem prestige_nonregression (s : GameState)
    (h : s.prestigeBonusMultiplier = 1 + s.prestigePoints * bonusMultiplierPerPoint) :
    s.prestigePoints ≤ (prestigeStep s).prestigePoints ∧
      s.prestigeBonusMultiplier ≤ (prestigeStep s).prestigeBonusMultiplier ∧
      s.totalPrestiges ≤ (prestigeStep s).totalPrestiges ∧
      (∃ ext, (prestigeStep s).unlockedIds = s.unlockedIds ++ ext) ∧
      (prestigeStep s).prestigeBonusMultiplier
        = 1 + (prestigeStep s).prestigePoints * bonusMultiplierPerPoint := by
  by_cases h0 : 0 < calculatePrestigePoints s
  · have hg0 : (0 : ℚ) ≤ (calculatePrestigePoints s : ℚ) := by positivity
    have hbpp : (0 : ℚ) ≤ bonusMultiplierPerPoint := by norm_num [bonusMultiplierPerPoint]
    obtain ⟨hc1, hc2, hc3, ⟨ext, hcext⟩⟩ := checkArtifactUnlocks_fields (s.totalPrestiges + 1)
      { s with
        prestigePoints := s.prestigePoints + (calculatePrestigePoints s : ℚ)
        prestigeBonusMultiplier :=
          1 + (s.prestigePoints + (calculatePrestigePoints s : ℚ)) * bonusMultiplierPerPoint
        totalPrestiges := s.totalPrestiges + 1 }
    have hpoints : (prestigeStep s).prestigePoints
        = s.prestigePoints + (calculatePrestigePoints s : ℚ) := by
      simp only [prestigeStep, prestigeGame, if_pos h0]
      rw [recalculateGoldRates_prestige_points_aux, (applyArtifactEffects_prestige _).1]
      exact hc1
    have hmult : (prestigeStep s).prestigeBonusMultiplier
        = 1 + (s.prestigePoints + (calculatePrestigePoints s : ℚ)) * bonusMultiplierPerPoint := by
      simp only [prestigeStep, prestigeGame, if_pos h0]
      rw [recalculateGoldRates_prestige_mult_aux, (applyArtifactEffects_prestige _).2.1]
      exact hc2
    have htotal : (prestigeStep s).totalPrestiges = s.totalPrestiges + 1 := by
      simp only [prestigeStep, prestigeGame, if_pos h0]
      rw [recalculateGoldRates_prestige_total_aux, (applyArtifactEffects_prestige _).2.2]
      exact hc3
    have hids : (prestigeStep s).unlockedIds = s.unlockedIds ++ ext := by
      simp only [prestigeStep, prestigeGame, if_pos h0]
      rw [recalculateGoldRates_unlockedIds, applyArtifactEffects_unlockedIds]
      exact hcext
    refine ⟨?_, ?_, ?_, ⟨ext, hids⟩, ?_⟩
    · rw [hpoints]
      linarith
    · rw [hmult, h]
      have hgb : 0 ≤ (calculatePrestigePoints s : ℚ) * bonusMultiplierPerPoint :=
        mul_nonneg hg0 hbpp
      nlinarith
    · rw [htotal]
      omega
    · rw [hmult, hpoints]
  · have hid : prestigeStep s = s := by
      simp only [prestigeStep, prestigeGame, if_neg h0]
    rw [hid]
    exact ⟨le_refl _, le_refl _, le_refl _, ⟨[], by simp⟩, h⟩

/-- Witness for C8 at the initial state, whose multiplier satisfies the
consistency invariant 1 = 1 + 0 * bonusPerPoint. -/
theorem prestige_nonregression_witness :
    initialGameState.prestigeBonusMultiplier
        = 1 + initialGameState.prestigePoints * bonusMultiplierPerPoint ∧
      initialGameState.prestigePoints ≤ (prestigeStep initialGameState).prestigePoints ∧
      (∃ ext, (prestigeStep initialGameState).unlockedIds
        = initialGameState.unlockedIds ++ ext) := by
  have h : initialGameState.prestigeBonusMultiplier
      = 1 + initialGameState.prestigePoints * bonusMultiplierPerPoint := by
    norm_num [initialGameState, bonusMultiplierPerPoint]
  obtain ⟨h1, _, _, h4, _⟩ := prestige_nonregression initialGameState h
  exact ⟨h, h1, h4⟩

/-! ### The persistence gateway -/

/-- C10: loadGame prefers the primary store; a missing or unparseable
primary (modelled as none) falls back to the backup; a decoded payload is
adopted, merged whole over the defaults, exactly when its gold and
prestigePoints fields are present as numbers, and is otherwise discarded
with the state left exactly at the defaults — never partially adopted. -/
theorem loadGame_validation (p : Payload) (b : Option Payload) (s : GameState) :
    (validPayload p → loadGame (some p) b s = mergePayload s p) ∧
      (¬ validPayload p → loadGame (some p) b s = s) ∧
      (validPayload p → loadGame none (some p) s = mergePayload s p) ∧
      (¬ validPayload p → loadGame none (some p) s = s) ∧
      loadGame none none s = s := by
  refine ⟨?_, ?_, ?_, ?_, rfl⟩
  · intro hv
    simp only [loadGame, if_pos hv]
  · intro hv
    simp only [loadGame, if_neg hv]
  · intro hv
    simp only [loadGame, if_pos hv]
  · intro hv
    simp only [loadGame, if_neg hv]

/-- A minimal valid save payload: gold and prestigePoints present as
numbers, everything else absent. -/
def samplePayload : Payload :=
  ⟨some 5, none, none, none, none, none, none, none, none, none, none, none, none, none, none,
    none, some 2, none, none, none, none, none⟩

/-- A corrupt save payload: gold is absent (or not a number). -/
def corruptPayload : Payload :=
  ⟨none, none, none, none, none, none, none, none, none, none, none, none, none, none, none,
    none, some 2, none, none, none, none, none⟩

/-- Witness for C10: the valid minimal payload is merged over the defaults
(gold 5, prestige points 2, every absent field keeping its default), while
the corrupt payload is rejected and the defaults survive untouched. -/
theorem loadGame_validation_witness :
    validPayload samplePayload ∧
      loadGame (some samplePayload) none initialGameState
        = mergePayload initialGameState samplePayload ∧
      (mergePayload initialGameState samplePayload).gold = 5 ∧
      (mergePayload initialGameState samplePayload).prestigePoints = 2 ∧
      (mergePayload initialGameState samplePayload).minerJobCost
        = initialGameState.minerJobCost ∧
      ¬ validPayload corruptPayload ∧
      loadGame (some corruptPayload) none initialGameState = initialGameState := by
  have hv : validPayload samplePayload := ⟨rfl, rfl⟩
  have hnv : ¬ validPayload corruptPayload := by
    intro hc
    exact absurd hc.1 (by simp [corruptPayload])
  refine ⟨hv, ?_, rfl, rfl, rfl, hnv, ?_⟩
  · exact (loadGame_validation samplePayload none initialGameState).1 hv
  · exact (loadGame_validation corruptPayload none initialGameState).2.1 hnv

end FIA
